import Mathlib

/-!
Shallow embedding of the kbcli backup/account command logic
(package `cluster` backup file and `pkg/cmd/accounts/base.go`),
with theorems checking the natural-language specification.

Strings are modelled by Lean `String`; the Go standard-library string
helpers used by the code (`strings.TrimSpace`, `strings.Split`,
`strings.Trim`, `strings.Join`, `strings.HasPrefix`) are re-implemented
below over the character list, restricted to the ASCII whitespace these
inputs use. Kubernetes dynamic-client reads are modelled by lookups in an
explicit environment value.
-/

/-! ### Go string helpers -/

/-- Characters dropped from the left while they satisfy `Char.isWhitespace`,
the model of the cutset of `strings.TrimSpace`. -/
def dropWhileWS : List Char → List Char
  | [] => []
  | c :: cs => if c.isWhitespace then dropWhileWS cs else c :: cs

/-- `strings.TrimSpace`: whitespace removed from both ends. -/
def goTrimSpace (s : String) : String :=
  String.mk ((dropWhileWS ((dropWhileWS s.data).reverse)).reverse)

/-- Characters of the cutset dropped from the left, the worker of
`strings.Trim`. -/
def dropWhileCut (cut : List Char) : List Char → List Char
  | [] => []
  | c :: cs => if cut.contains c then dropWhileCut cut cs else c :: cs

/-- `strings.Trim`: characters of the cutset removed from both ends. -/
def goTrim (s : String) (cut : List Char) : String :=
  String.mk ((dropWhileCut cut ((dropWhileCut cut s.data).reverse)).reverse)

/-- `strings.Split` on the single separator character. -/
def splitOnChar (sep : Char) : List Char → List (List Char)
  | [] => [[]]
  | c :: cs =>
    if c == sep then [] :: splitOnChar sep cs
    else
      match splitOnChar sep cs with
      | [] => [[c]]
      | h :: t => (c :: h) :: t

/-- `strings.Split(row, "=")`. -/
def goSplitEq (s : String) : List String := (splitOnChar '=' s.data).map String.mk

/-- `strings.HasPrefix(row, "#")`. -/
def goHasPrefixHash (s : String) : Bool :=
  match s.data with
  | [] => false
  | c :: _ => c == '#'

/-- `strings.Join(elems, sep)`. -/
def goJoin (sep : String) : List String → String
  | [] => ""
  | [a] => a
  | a :: rest => a ++ sep ++ goJoin sep rest

/-- Go map indexing with the zero value `""` for a missing key, used for
label and annotation lookups on Kubernetes objects. -/
def lookupDefault (m : List (String × String)) (k : String) : String :=
  match m.find? (fun p => p.1 == k) with
  | some p => p.2
  | none => ""

/-- `constant.AppInstanceLabelKey`. -/
def appInstanceLabelKey : String := "app.kubernetes.io/instance"

/-- `dptypes.DefaultBackupPolicyAnnotationKey`. -/
def defaultBackupPolicyAnnotKey : String := "dataprotection.kubeblocks.io/is-default-policy"

/-! ### Delete-backup completion (`completeForDeleteBackup`) -/

/-- The fields of `action.DeleteOptions` read and written by
`completeForDeleteBackup`. -/
structure DeleteOptions where
  Force : Bool
  Names : List String
  ConfirmedNames : List String
  LabelSelector : String
deriving Repr, DecidableEq

/-- Modelled from the spec: `util.BuildLabelSelectorByNames` (repository code
not under `src/`) joins the candidate resource names into an "in"-style
instance-label selector, appended to any existing selector. -/
def buildLabelSelectorByNames (selector : String) (names : List String) : String :=
  if names.length == 0 then selector
  else
    let sel := appInstanceLabelKey ++ " in (" ++ goJoin "," names ++ ")"
    if selector == "" then sel else selector ++ "," ++ sel

/-- `completeForDeleteBackup`: argument and flag validation for
`delete-backup`, with the force-path selector computation and the final
unconditional `ConfirmedNames` assignment. -/
def completeForDeleteBackup (o : DeleteOptions) (args : List String) :
    Except String DeleteOptions :=
  if args.length == 0 then .error "Missing cluster name"
  else if 1 < args.length then .error "Only supported delete the Backup of one cluster"
  else if !o.Force && o.Names.length == 0 then .error "Missing --name as backup name."
  else
    let o1 :=
      if o.Force && o.Names.length == 0 then
        { o with LabelSelector := buildLabelSelectorByNames o.LabelSelector args,
                 ConfirmedNames := args }
      else o
    .ok { o1 with ConfirmedNames := o1.Names }

/-! ### Account command validation (`AccountBaseOptions.Validate`) -/

/-- The distinct sentinel errors of `pkg/cmd/accounts/base.go` that
`Validate` can return. -/
inductive AccountErr where
  | clusterNameNum
  | compNameOrInstName
  | clusterNameOrInstName
deriving Repr, DecidableEq

/-- The fields of `AccountBaseOptions` read and written by `Validate`. -/
structure AccountBaseOptions where
  ClusterName : String
  ComponentName : String
  PodName : String
deriving Repr, DecidableEq

/-- The trailing `if len(args) == 1 { o.ClusterName = args[0] }` of
`Validate`, shared by its success paths. -/
def setClusterNameFromArgs (o : AccountBaseOptions) (args : List String) :
    AccountBaseOptions :=
  if args.length == 1 then { o with ClusterName := args.headD "" } else o

/-- `AccountBaseOptions.Validate`. -/
def AccountBaseOptions.Validate (o : AccountBaseOptions) (args : List String) :
    Except AccountErr AccountBaseOptions :=
  if 1 < args.length then .error .clusterNameNum
  else if 0 < o.PodName.length then
    if 0 < o.ComponentName.length then .error .compNameOrInstName
    else if 0 < args.length then .error .clusterNameOrInstName
    else .ok (setClusterNameFromArgs o args)
  else if args.length == 0 then .error .clusterNameOrInstName
  else .ok (setClusterNameFromArgs o args)

/-! ### Backup creation (`CreateBackupOptions`) -/

/-- The fields of `CreateBackupOptions` (with its embedded `BackupSpec` and
`action.CreateOptions` flattened) read and written by `CompleteBackup` and
`Validate`. -/
structure CreateBackupOptions where
  Namespace : String
  Name : String
  BackupName : String
  BackupPolicyName : String
  BackupMethod : String
  RetentionPeriod : String
  ParentBackupName : String
  OpsType : String
  OpsRequestName : String
  ClusterRef : String
deriving Repr, DecidableEq

/-- A wall-clock instant, the argument of `time.Now().Format`. -/
structure GoTime where
  year : Nat
  month : Nat
  day : Nat
  hour : Nat
  minute : Nat
  second : Nat
deriving Repr, DecidableEq

/-- A numeric field zero-padded to two digits, as the Go layout components
`01 02 15 04 05` render. -/
def pad2 (n : Nat) : String := if n < 10 then "0" ++ toString n else toString n

/-- A year zero-padded to four digits, as the Go layout component `2006`
renders. -/
def pad4 (n : Nat) : String :=
  if n < 10 then "000" ++ toString n
  else if n < 100 then "00" ++ toString n
  else if n < 1000 then "0" ++ toString n
  else toString n

/-- `time.Now().Format("20060102150405")`: the timestamp as
yyyymmddhhmmss. -/
def formatGoTimestamp (t : GoTime) : String :=
  pad4 t.year ++ pad2 t.month ++ pad2 t.day ++ pad2 t.hour ++ pad2 t.minute ++ pad2 t.second

/-- `CreateBackupOptions.CompleteBackup`, with the current time passed
explicitly. The surrounding `o.Complete()` and `o.CreateOptions.Complete()`
calls live in repository code not under `src/`; modelled from the spec,
they resolve ambient configuration (namespace, clients, template) and leave
the fields below unchanged, so they are elided here. -/
def CreateBackupOptions.CompleteBackup (o : CreateBackupOptions) (now : GoTime) :
    CreateBackupOptions :=
  let o1 :=
    if o.BackupName.length == 0 then
      { o with BackupName := goJoin "-" ["backup", o.Namespace, o.Name, formatGoTimestamp now] }
    else o
  { o1 with OpsType := "Backup", OpsRequestName := o1.BackupName, ClusterRef := o1.Name }

/-- A backup-policy object as the dynamic client returns it: name, labels
and annotations. -/
structure PolicyRes where
  name : String
  labels : List (String × String)
  annots : List (String × String)
deriving Repr, DecidableEq

/-- A backup object as the dynamic client returns it: name, labels and
status phase. -/
structure BackupRes where
  name : String
  labels : List (String × String)
  phase : String
deriving Repr, DecidableEq

/-- The remote objects visible through the dynamic client in the working
namespace: cluster names, backup policies, backups. -/
structure DynamicEnv where
  clusterNames : List String
  backupPolicies : List PolicyRes
  backups : List BackupRes
deriving Repr, DecidableEq

/-- `CreateBackupOptions.getDefaultBackupPolicy`: fetch the cluster, list
its backup policies by the instance label, and select the unique policy
carrying the default annotation set to `"true"`. -/
def CreateBackupOptions.getDefaultBackupPolicy (o : CreateBackupOptions)
    (env : DynamicEnv) : Except String String :=
  if !env.clusterNames.contains o.Name then
    .error ("clusters.apps.kubeblocks.io \"" ++ o.Name ++ "\" not found")
  else
    let objs := env.backupPolicies.filter
      (fun p => lookupDefault p.labels appInstanceLabelKey == o.Name)
    if objs.length == 0 then
      .error ("not found any backup policy for cluster \"" ++ o.Name ++ "\"")
    else
      let defaults := objs.filter
        (fun p => lookupDefault p.annots defaultBackupPolicyAnnotKey == "true")
      if defaults.length == 0 then
        .error ("not found any default backup policy for cluster \"" ++ o.Name ++ "\"")
      else if 1 < defaults.length then
        .error ("cluster \"" ++ o.Name ++ "\" has multiple default backup policies")
      else .ok (defaults.headD ⟨"", [], []⟩).name

/-- `CreateBackupOptions.completeDefaultBackupPolicy`: store the resolved
default policy name. -/
def CreateBackupOptions.completeDefaultBackupPolicy (o : CreateBackupOptions)
    (env : DynamicEnv) : Except String CreateBackupOptions :=
  match o.getDefaultBackupPolicy env with
  | .error e => .error e
  | .ok n => .ok { o with BackupPolicyName := n }

/-- The retention-period error message of `Validate`. -/
def retentionErrMsg : String :=
  "invalid retention period, please refer to examples [1y, 1m, 1d, 1h, 1m] or combine them [1y1m1d1h1m]"

/-- `CreateBackupOptions.Validate`. `retentionValid` models the external
library parse `dpv1alpha1.RetentionPeriod(...).ToDuration()`; the dynamic
`Get` calls are lookups in `env`. -/
def CreateBackupOptions.Validate (o : CreateBackupOptions) (env : DynamicEnv)
    (retentionValid : String → Bool) : Except String CreateBackupOptions :=
  if o.Name == "" then .error "missing cluster name"
  else
    match (if o.BackupPolicyName == "" then o.completeDefaultBackupPolicy env else .ok o) with
    | .error e => .error e
    | .ok o1 =>
      if (env.backupPolicies.find? (fun p => p.name == o1.BackupPolicyName)).isNone then
        .error ("backuppolicies.dataprotection.kubeblocks.io \"" ++ o1.BackupPolicyName ++ "\" not found")
      else if o1.BackupMethod == "" then
        .error "backup method can not be empty, you can specify it by --method"
      else if o1.RetentionPeriod != "" && !retentionValid o1.RetentionPeriod then
        .error retentionErrMsg
      else if o1.ParentBackupName != "" then
        match env.backups.find? (fun b => b.name == o1.ParentBackupName) with
        | none =>
          .error ("backups.dataprotection.kubeblocks.io \"" ++ o1.ParentBackupName ++ "\" not found")
        | some parentBackup =>
          if parentBackup.phase != "Completed" then
            .error ("parent backup " ++ o1.ParentBackupName ++ " is not completed")
          else if lookupDefault parentBackup.labels appInstanceLabelKey != o1.Name then
            .error ("parent backup " ++ o1.ParentBackupName ++ " is not belong to cluster " ++ o1.Name)
          else .ok o1
      else .ok o1

/-- The backup policies of the cluster, as listed by the dynamic client
with the instance-label selector in `getDefaultBackupPolicy`. -/
def matchedPolicies (env : DynamicEnv) (clusterName : String) : List PolicyRes :=
  env.backupPolicies.filter (fun p => lookupDefault p.labels appInstanceLabelKey == clusterName)

/-- Those matched policies carrying the default annotation set to
`"true"`. -/
def defaultPolicies (env : DynamicEnv) (clusterName : String) : List PolicyRes :=
  (matchedPolicies env clusterName).filter
    (fun p => lookupDefault p.annots defaultBackupPolicyAnnotKey == "true")

/-! ### Listing backups (`PrintBackupList`) -/

/-- The `printer.Format` output formats selectable with `-o`. -/
inductive PrintFormat where
  | table
  | wide
  | json
  | yaml
deriving Repr, DecidableEq

/-- A backup object of the remote list with the fields the table printer
reads. -/
structure BackupItem where
  name : String
  ns : String
  labels : List (String × String)
  method : String
  phase : String
  creationTimestamp : Nat
deriving Repr, DecidableEq

/-- The fields of `ListBackupOptions` that decide the printed output. -/
structure ListBackupOptions where
  Format : PrintFormat
  Names : List String
  BackupName : String
deriving Repr, DecidableEq

/-- What a `list-backups` invocation emits: a JSON/YAML structural
passthrough, the not-found message, or table rows. -/
inductive ListOutcome where
  | passthrough (names : List String)
  | notFoundMsg
  | table (rows : List BackupItem)
deriving Repr, DecidableEq

/-- Modelled from the spec: the `Less` order of `unstructuredList`
(repository code not under `src/`) compares creation timestamps, so the
table sorts ascending by creation time. -/
def createdBefore (a b : BackupItem) : Prop :=
  a.creationTimestamp ≤ b.creationTimestamp

instance : DecidableRel createdBefore :=
  fun a b => inferInstanceAs (Decidable (a.creationTimestamp ≤ b.creationTimestamp))

instance : IsTotal BackupItem createdBefore := ⟨fun _ _ => Nat.le_total _ _⟩

instance : IsTrans BackupItem createdBefore := ⟨fun _ _ _ => Nat.le_trans⟩

/-- `sort.Sort(unstructuredList(backupList.Items))`, modelled as insertion
sort by `createdBefore`. -/
def sortBackupsByCreation (items : List BackupItem) : List BackupItem :=
  List.insertionSort createdBefore items

/-- The negation of the row-skip condition
`len(o.Names) > 0 && !backupNameMap[backup.Name]`. -/
def keepBackupRow (names : List String) (b : BackupItem) : Bool :=
  !(names.length != 0 && !(names.contains b.name))

/-- `PrintBackupList`. `remote` is the list the dynamic client returns for
the namespace and selectors. In JSON/YAML mode the function delegates to
`action.ListOptions.Run` (repository code not under `src/`), modelled from
the spec as a structural passthrough of the remote list restricted to the
explicit names. -/
def PrintBackupList (o : ListBackupOptions) (remote : List BackupItem) : ListOutcome :=
  if o.Format == .json || o.Format == .yaml then
    .passthrough (if o.BackupName != "" then [o.BackupName] else o.Names)
  else if remote.length == 0 then .notFoundMsg
  else .table ((sortBackupsByCreation remote).filter (keepBackupRow o.Names))

/-! ### Editing a backup policy (`editBackupPolicyOptions.applyChanges`) -/

/-- An `updateBackupPolicyFieldFunc` of the editable-key table: it
validates and applies one new value and can fail on its remote read. The
mutation of the typed backupPolicy object is captured by the invocation
trace `applyChanges` records. -/
abbrev UpdateFieldFn := String → Except String Unit

/-- The double-quote character, the first cutset of the value trimming. -/
def doubleQuoteChar : Char := Char.ofNat 34

/-- The single-quote character, the second cutset of the value trimming. -/
def singleQuoteChar : Char := Char.ofNat 39

/-- `updateRepoName` built in `complete()`: a non-empty value must name an
existing backup repo, fetched through the dynamic client (modelled by the
`repos` list). -/
def updateRepoName (repos : List String) (targetVal : String) : Except String Unit :=
  if targetVal != "" && !(repos.contains targetVal) then
    .error ("backuprepos.dataprotection.kubeblocks.io \"" ++ targetVal ++ "\" not found")
  else .ok ()

/-- The `editContentKeyMap` built in `complete()`: the single editable key
`backupRepoName` mapped to `updateRepoName`. -/
def editContentKeyMapOf (repos : List String) : List (String × UpdateFieldFn) :=
  [("backupRepoName", fun v => updateRepoName repos v)]

/-- The fields of `editBackupPolicyOptions` read by `applyChanges`. -/
structure EditBackupPolicyOptions where
  original : String
  target : String
  values : List String
deriving Repr, DecidableEq

/-- `strings.Trim` of the value, first with the double quote and then with
the single quote. -/
def trimEditValue (v : String) : String :=
  goTrim (goTrim v [doubleQuoteChar]) [singleQuoteChar]

/-- The loop of `applyChanges` over the edited lines, returning the error
that stopped the loop (if any), the accumulated target text, and the trace
of update-function invocations in order. -/
def applyGo (keyMap : List (String × UpdateFieldFn)) :
    List String → String → List (String × String) →
    Option String × String × List (String × String)
  | [], _target, calls => (none, _target, calls)
  | v :: rest, target, calls =>
    let row := goTrimSpace v
    if goHasPrefixHash row || row == "" then applyGo keyMap rest target calls
    else
      let target1 := target ++ row
      let arr := goSplitEq row
      if arr.length != 2 then
        (some ("invalid row: " ++ v ++ ", format should be \"key=value\""), target1, calls)
      else
        match keyMap.lookup (arr.headD "") with
        | none => (some ("invalid key: " ++ arr.headD ""), target1, calls)
        | some updateFn =>
          let val := trimEditValue (arr.getD 1 "")
          match updateFn val with
          | .error e => (some e, target1, calls)
          | .ok _ => applyGo keyMap rest target1 (calls ++ [(arr.headD "", val)])

/-- The observable effects of one `applyChanges` call. -/
structure ApplyEffects where
  err : Option String
  finalTarget : String
  updateFnCalls : List (String × String)
  apiWrites : Nat
  printed : List String
deriving Repr, DecidableEq

/-- `editBackupPolicyOptions.applyChanges`: process the lines, then perform
the full-object `Update` only when the serialized before/after text
differs. The remote `Update` write is counted in `apiWrites` (modelled as
succeeding); `printed` records the `Fprintln` output. -/
def EditBackupPolicyOptions.applyChanges (o : EditBackupPolicyOptions)
    (keyMap : List (String × UpdateFieldFn)) : ApplyEffects :=
  match applyGo keyMap o.values o.target [] with
  | (some e, target, calls) => ⟨some e, target, calls, 0, []⟩
  | (none, target, calls) =>
    if o.original == target then ⟨none, target, calls, 0, ["updated (no change)"]⟩
    else ⟨none, target, calls, 1, ["updated"]⟩

/-- A line `applyChanges` skips: comment or blank after trimming. -/
def lineSkipped (v : String) : Bool :=
  let row := goTrimSpace v
  goHasPrefixHash row || row == ""

/-- A processed line `applyChanges` rejects: not of the form `key=value`,
or a key outside the editable-key table. -/
def lineRejected (keyMap : List (String × UpdateFieldFn)) (v : String) : Bool :=
  let arr := goSplitEq (goTrimSpace v)
  !(lineSkipped v) && (arr.length != 2 || (keyMap.lookup (arr.headD "")).isNone)

/-- The error message `applyChanges` reports for a rejected line. -/
def lineErrMsg (v : String) : String :=
  let arr := goSplitEq (goTrimSpace v)
  if arr.length != 2 then "invalid row: " ++ v ++ ", format should be \"key=value\""
  else "invalid key: " ++ arr.headD ""

/-- A line the loop passes: skipped, or valid with a succeeding update
function. -/
def lineOK (keyMap : List (String × UpdateFieldFn)) (v : String) : Bool :=
  lineSkipped v ||
    (let arr := goSplitEq (goTrimSpace v)
     arr.length == 2 &&
       match keyMap.lookup (arr.headD "") with
       | none => false
       | some updateFn =>
         match updateFn (trimEditValue (arr.getD 1 "")) with
         | .ok _ => true
         | .error _ => false)

/-- The target text contributed by a list of passing lines. -/
def rowsTextOf : List String → String
  | [] => ""
  | v :: rest => (if lineSkipped v then "" else goTrimSpace v) ++ rowsTextOf rest

/-- The update-function invocations contributed by a list of passing
lines. -/
def callsOfLines : List String → List (String × String)
  | [] => []
  | v :: rest =>
    if lineSkipped v then callsOfLines rest
    else
      let arr := goSplitEq (goTrimSpace v)
      (arr.headD "", trimEditValue (arr.getD 1 "")) :: callsOfLines rest

/-! ### Concrete witness inputs -/

/-- The concrete options record used by the C9 witness: force set, no
names. -/
def deleteOptsForce : DeleteOptions := ⟨true, [], [], ""⟩

/-- The record `completeForDeleteBackup` returns on `deleteOptsForce` with
one cluster argument. -/
def deleteOptsForceOut : DeleteOptions :=
  ⟨true, [], [], buildLabelSelectorByNames "" ["mycluster"]⟩

/-- The options record for the C7 witness: empty backup name. -/
def createOptsC7 : CreateBackupOptions :=
  ⟨"default", "mycluster", "", "my-policy", "volume-snapshot", "", "", "", "", ""⟩

/-- The instant for the C7 witness. -/
def timeC7 : GoTime := ⟨2023, 6, 16, 19, 0, 23⟩

/-- The environment for the C2 witness: the policy exists, the parent
backup `parent1` is labelled for `mycluster` but its phase is `Running`. -/
def envC2 : DynamicEnv :=
  ⟨["mycluster"],
   [⟨"my-policy", [("app.kubernetes.io/instance", "mycluster")], []⟩],
   [⟨"parent1", [("app.kubernetes.io/instance", "mycluster")], "Running"⟩]⟩

/-- The options record for the C2 witness. -/
def createOptsC2 : CreateBackupOptions :=
  ⟨"default", "mycluster", "b1", "my-policy", "volume-snapshot", "", "parent1", "", "", ""⟩

/-- The parent backup the C2 witness fetches. -/
def parentC2 : BackupRes := ⟨"parent1", [("app.kubernetes.io/instance", "mycluster")], "Running"⟩

/-- The environment for the C8 witness: two policies labelled for
`mycluster`, exactly one carrying the default annotation. -/
def envC8 : DynamicEnv :=
  ⟨["mycluster"],
   [⟨"pol-default", [("app.kubernetes.io/instance", "mycluster")],
      [("dataprotection.kubeblocks.io/is-default-policy", "true")]⟩,
    ⟨"pol-extra", [("app.kubernetes.io/instance", "mycluster")], []⟩],
   []⟩

/-- The options record for the C8 witness: empty `--policy`. -/
def createOptsC8 : CreateBackupOptions :=
  ⟨"default", "mycluster", "", "", "volume-snapshot", "", "", "", "", ""⟩

/-- The options record for the C5 witness: table mode with an explicit
include-name set. -/
def listOptsC5 : ListBackupOptions := ⟨.table, ["b1"], ""⟩

/-- The remote backups for the C5 witness, in descending creation order. -/
def remoteC5 : List BackupItem :=
  [⟨"b2", "default", [], "volume-snapshot", "Completed", 5⟩,
   ⟨"b1", "default", [], "volume-snapshot", "Completed", 3⟩]

/-- The options record for the C6 witness: JSON mode with `--name b1`. -/
def listOptsC6 : ListBackupOptions := ⟨.json, ["other"], "b1"⟩

/-- The options record for the C3 witness: the edited text equals the
original projection. -/
def editOptsC3 : EditBackupPolicyOptions :=
  ⟨"backupRepoName=repo1", "", ["backupRepoName=repo1"]⟩

/-- The key table for the C3 witness, with `repo1` an existing repo. -/
def keyMapC3 : List (String × UpdateFieldFn) := editContentKeyMapOf ["repo1"]

/-- The options record for the C4 witness: a valid line, then a line with
an unknown key, then another valid line. -/
def editOptsC4 : EditBackupPolicyOptions :=
  ⟨"backupRepoName=repo1", "",
   ["backupRepoName=repo1", "badkey=x", "backupRepoName=repo2"]⟩

/-- The key table for the C4 witness, with both repos existing. -/
def keyMapC4 : List (String × UpdateFieldFn) := editContentKeyMapOf ["repo1", "repo2"]

/-! ### Theorems -/

/-- A Lean `String` has positive length exactly when it is not `""`. -/
theorem string_length_pos_iff (s : String) : 0 < s.length ↔ s ≠ "" := by
  cases s with
  | mk data =>
    cases data <;> simp [String.length, String.ext_iff]

/-- C1: with the force flag unset and no explicit `--name` values,
`completeForDeleteBackup` returns an error for every argument list, so the
delete `Run` is never reached: delete-backup requires at least one explicit
name unless force is set. -/
theorem completeForDeleteBackup_requires_names (o : DeleteOptions) (args : List String)
    (hforce : o.Force = false) (hnames : o.Names = []) :
    ∃ msg, completeForDeleteBackup o args = .error msg := by
  unfold completeForDeleteBackup
  match args with
  | [] => exact ⟨"Missing cluster name", rfl⟩
  | [a] => simp [hforce, hnames]
  | a :: b :: rest => simp

/-- Witness for C1 at a concrete input: one cluster argument, force unset,
no names. -/
theorem completeForDeleteBackup_requires_names_witness :
    ∃ msg, completeForDeleteBackup ⟨false, [], [], ""⟩ ["mycluster"] = .error msg :=
  completeForDeleteBackup_requires_names ⟨false, [], [], ""⟩ ["mycluster"] rfl rfl

/-- C9: whenever `completeForDeleteBackup` succeeds, the returned
`ConfirmedNames` equals the incoming `Names`; in particular on the
force-with-no-names path the assignment `ConfirmedNames = args` is
overwritten by the empty `Names` list while the force-computed label
selector remains set. -/
theorem completeForDeleteBackup_confirmedNames (o o' : DeleteOptions) (args : List String)
    (h : completeForDeleteBackup o args = .ok o') :
    o'.ConfirmedNames = o.Names ∧
      (o.Force = true → o.Names = [] →
        o'.LabelSelector = buildLabelSelectorByNames o.LabelSelector args ∧
          o'.ConfirmedNames = []) := by
  unfold completeForDeleteBackup at h
  split at h
  · exact absurd h (by simp)
  · split at h
    · exact absurd h (by simp)
    · split at h
      · exact absurd h (by simp)
      · split at h
        · rename_i hfn
          cases h
          refine ⟨rfl, fun _ hn => ⟨rfl, ?_⟩⟩
          simpa using hn
        · rename_i hfn
          cases h
          refine ⟨rfl, fun hf hn => absurd hfn ?_⟩
          simp [hf, hn]

/-- Witness for C9 at a concrete input: force set with no names; the
returned `ConfirmedNames` is empty and the label selector holds the
force-computed value. -/
theorem completeForDeleteBackup_confirmedNames_witness :
    deleteOptsForceOut.ConfirmedNames = deleteOptsForce.Names ∧
      (deleteOptsForce.Force = true → deleteOptsForce.Names = [] →
        deleteOptsForceOut.LabelSelector =
            buildLabelSelectorByNames deleteOptsForce.LabelSelector ["mycluster"] ∧
          deleteOptsForceOut.ConfirmedNames = []) :=
  completeForDeleteBackup_confirmedNames deleteOptsForce deleteOptsForceOut ["mycluster"] rfl

/-- C10: `AccountBaseOptions.Validate` succeeds exactly when a single
cluster-name argument is given without `--instance`, or `--instance` is
given with neither `--component` nor an argument; the errors are checked in
source order (argument count, instance with component, instance with
argument, neither given); and on success with one argument `ClusterName` is
set to that argument. -/
theorem AccountBaseOptions.Validate_spec (o : AccountBaseOptions) (args : List String) :
    ((o.Validate args).isOk ↔
      ((o.PodName = "" ∧ args.length = 1) ∨
        (o.PodName ≠ "" ∧ o.ComponentName = "" ∧ args = []))) ∧
    (1 < args.length → o.Validate args = .error .clusterNameNum) ∧
    (args.length ≤ 1 → o.PodName ≠ "" → o.ComponentName ≠ "" →
      o.Validate args = .error .compNameOrInstName) ∧
    (args.length = 1 → o.PodName ≠ "" → o.ComponentName = "" →
      o.Validate args = .error .clusterNameOrInstName) ∧
    (args = [] → o.PodName = "" → o.Validate args = .error .clusterNameOrInstName) ∧
    (∀ a, args = [a] → o.PodName = "" →
      o.Validate args = .ok { o with ClusterName := a }) := by
  have hpod := string_length_pos_iff o.PodName
  have hcomp := string_length_pos_iff o.ComponentName
  match args with
  | [] =>
    by_cases hp : o.PodName = "" <;> by_cases hc : o.ComponentName = "" <;>
      simp_all [AccountBaseOptions.Validate, setClusterNameFromArgs, Except.isOk, Except.toBool]
  | [a] =>
    by_cases hp : o.PodName = "" <;> by_cases hc : o.ComponentName = "" <;>
      simp_all [AccountBaseOptions.Validate, setClusterNameFromArgs, Except.isOk, Except.toBool]
  | a :: b :: rest =>
    by_cases hp : o.PodName = "" <;> by_cases hc : o.ComponentName = "" <;>
      simp_all [AccountBaseOptions.Validate, Except.isOk, Except.toBool,
        Nat.succ_lt_succ_iff]

/-- C7: with an empty `--name` flag, `CompleteBackup` generates the backup
name `backup-<namespace>-<cluster>-<timestamp>` (joined by `-`, timestamp
yyyymmddhhmmss), and the submitted `OpsRequestName` equals that backup name
while `ClusterRef` equals the cluster name. -/
theorem CreateBackupOptions.CompleteBackup_generates_name (o : CreateBackupOptions)
    (now : GoTime) (h : o.BackupName = "") :
    (o.CompleteBackup now).BackupName =
        "backup" ++ "-" ++ o.Namespace ++ "-" ++ o.Name ++ "-" ++ formatGoTimestamp now ∧
      (o.CompleteBackup now).OpsRequestName = (o.CompleteBackup now).BackupName ∧
      (o.CompleteBackup now).ClusterRef = o.Name := by
  simp [CreateBackupOptions.CompleteBackup, h, goJoin, String.append_assoc]

/-- Witness for C7 at a concrete input. -/
theorem CreateBackupOptions.CompleteBackup_generates_name_witness :
    (createOptsC7.CompleteBackup timeC7).BackupName =
        "backup" ++ "-" ++ createOptsC7.Namespace ++ "-" ++ createOptsC7.Name ++ "-" ++
          formatGoTimestamp timeC7 ∧
      (createOptsC7.CompleteBackup timeC7).OpsRequestName =
        (createOptsC7.CompleteBackup timeC7).BackupName ∧
      (createOptsC7.CompleteBackup timeC7).ClusterRef = createOptsC7.Name :=
  CreateBackupOptions.CompleteBackup_generates_name createOptsC7 timeC7 rfl

/-- C2: when the cluster name, policy, method and retention checks pass and
the named parent backup is fetched, `Validate` rejects a parent whose phase
is not `Completed` with an error containing the parent's name, and rejects
a parent whose instance label differs from the target cluster with an error
naming the parent; either way the error message contains the parent
backup's name. -/
theorem CreateBackupOptions.Validate_parentBackup (o : CreateBackupOptions)
    (env : DynamicEnv) (retentionValid : String → Bool) (parentBackup : BackupRes)
    (hname : o.Name ≠ "")
    (hpol : o.BackupPolicyName ≠ "")
    (hpolFound : (env.backupPolicies.find? (fun p => p.name == o.BackupPolicyName)).isSome = true)
    (hmethod : o.BackupMethod ≠ "")
    (hret : o.RetentionPeriod = "" ∨ retentionValid o.RetentionPeriod = true)
    (hparent : o.ParentBackupName ≠ "")
    (hfind : env.backups.find? (fun b => b.name == o.ParentBackupName) = some parentBackup) :
    (parentBackup.phase ≠ "Completed" →
      o.Validate env retentionValid =
        .error ("parent backup " ++ o.ParentBackupName ++ " is not completed")) ∧
    (parentBackup.phase = "Completed" →
      lookupDefault parentBackup.labels appInstanceLabelKey ≠ o.Name →
      o.Validate env retentionValid =
        .error ("parent backup " ++ o.ParentBackupName ++ " is not belong to cluster " ++ o.Name)) ∧
    ((parentBackup.phase ≠ "Completed" ∨
        lookupDefault parentBackup.labels appInstanceLabelKey ≠ o.Name) →
      ∃ pre post, o.Validate env retentionValid = .error (pre ++ (o.ParentBackupName ++ post))) := by
  rcases Option.isSome_iff_exists.mp hpolFound with ⟨pol, hpolEq⟩
  have hvalid : o.Validate env retentionValid =
      (if parentBackup.phase != "Completed" then
        .error ("parent backup " ++ o.ParentBackupName ++ " is not completed")
      else if lookupDefault parentBackup.labels appInstanceLabelKey != o.Name then
        .error ("parent backup " ++ o.ParentBackupName ++ " is not belong to cluster " ++ o.Name)
      else .ok o) := by
    rcases hret with hr | hr <;>
      simp [CreateBackupOptions.Validate, hname, hpol, hmethod, hparent, hfind, hpolEq, hr]
  refine ⟨?_, ?_, ?_⟩
  · intro hph
    rw [hvalid, if_pos (by simp [hph])]
  · intro hph hlabel
    rw [hvalid, if_neg (by simp [hph]), if_pos (by simp [hlabel])]
  · intro hcase
    by_cases hph : parentBackup.phase = "Completed"
    · have hc : lookupDefault parentBackup.labels appInstanceLabelKey ≠ o.Name := by
        rcases hcase with hc | hc
        · exact absurd hph hc
        · exact hc
      refine ⟨"parent backup ", " is not belong to cluster " ++ o.Name, ?_⟩
      rw [hvalid, if_neg (by simp [hph]), if_pos (by simp [hc])]
      rw [String.append_assoc, String.append_assoc]
    · refine ⟨"parent backup ", " is not completed", ?_⟩
      rw [hvalid, if_pos (by simp [hph])]
      rw [String.append_assoc]

/-- Witness for C2 at a concrete input: the parent is not completed, so
`Validate` rejects with an error containing `parent1`. -/
theorem CreateBackupOptions.Validate_parentBackup_witness :
    (parentC2.phase ≠ "Completed" →
      createOptsC2.Validate envC2 (fun _ => true) =
        .error ("parent backup " ++ createOptsC2.ParentBackupName ++ " is not completed")) ∧
    (parentC2.phase = "Completed" →
      lookupDefault parentC2.labels appInstanceLabelKey ≠ createOptsC2.Name →
      createOptsC2.Validate envC2 (fun _ => true) =
        .error ("parent backup " ++ createOptsC2.ParentBackupName ++ " is not belong to cluster " ++
          createOptsC2.Name)) ∧
    ((parentC2.phase ≠ "Completed" ∨
        lookupDefault parentC2.labels appInstanceLabelKey ≠ createOptsC2.Name) →
      ∃ pre post, createOptsC2.Validate envC2 (fun _ => true) =
        .error (pre ++ (createOptsC2.ParentBackupName ++ post))) :=
  CreateBackupOptions.Validate_parentBackup createOptsC2 envC2 (fun _ => true) parentC2
    (by decide) (by decide) (by decide) (by decide) (Or.inl rfl) (by decide) (by decide)

/-- `getDefaultBackupPolicy` on an existing cluster, written with the
`matchedPolicies`/`defaultPolicies` abbreviations. -/
theorem getDefaultBackupPolicy_eq (o : CreateBackupOptions) (env : DynamicEnv)
    (hcluster : env.clusterNames.contains o.Name = true) :
    o.getDefaultBackupPolicy env =
      (if (matchedPolicies env o.Name).length == 0 then
        Except.error ("not found any backup policy for cluster \"" ++ o.Name ++ "\"")
      else if (defaultPolicies env o.Name).length == 0 then
        Except.error ("not found any default backup policy for cluster \"" ++ o.Name ++ "\"")
      else if 1 < (defaultPolicies env o.Name).length then
        Except.error ("cluster \"" ++ o.Name ++ "\" has multiple default backup policies")
      else Except.ok ((defaultPolicies env o.Name).headD ⟨"", [], []⟩).name) := by
  simp only [CreateBackupOptions.getDefaultBackupPolicy, matchedPolicies, defaultPolicies,
    hcluster, Bool.not_true, Bool.false_eq_true, if_false]

/-- With an empty `--policy` flag, `Validate` surfaces any error of the
default-policy resolution unchanged. -/
theorem validate_propagates_defaultPolicy_err (o : CreateBackupOptions) (env : DynamicEnv)
    (retentionValid : String → Bool) (e : String)
    (hname : o.Name ≠ "") (hpol : o.BackupPolicyName = "")
    (hg : o.getDefaultBackupPolicy env = .error e) :
    o.Validate env retentionValid = .error e := by
  simp [CreateBackupOptions.Validate, CreateBackupOptions.completeDefaultBackupPolicy,
    hname, hpol, hg]

/-- C8: with `--policy` empty, `Validate` resolves the default backup
policy before anything else: among the cluster's instance-labelled backup
policies it errors when none exists, errors when none carries the default
annotation `"true"`, errors when more than one does, and otherwise selects
the unique default policy's name. -/
theorem CreateBackupOptions.getDefaultBackupPolicy_spec (o : CreateBackupOptions)
    (env : DynamicEnv) (retentionValid : String → Bool)
    (hname : o.Name ≠ "") (hpol : o.BackupPolicyName = "")
    (hcluster : env.clusterNames.contains o.Name = true) :
    (matchedPolicies env o.Name = [] →
      o.getDefaultBackupPolicy env =
          .error ("not found any backup policy for cluster \"" ++ o.Name ++ "\"") ∧
        o.Validate env retentionValid =
          .error ("not found any backup policy for cluster \"" ++ o.Name ++ "\"")) ∧
    (matchedPolicies env o.Name ≠ [] → defaultPolicies env o.Name = [] →
      o.getDefaultBackupPolicy env =
          .error ("not found any default backup policy for cluster \"" ++ o.Name ++ "\"") ∧
        o.Validate env retentionValid =
          .error ("not found any default backup policy for cluster \"" ++ o.Name ++ "\"")) ∧
    (1 < (defaultPolicies env o.Name).length →
      o.getDefaultBackupPolicy env =
          .error ("cluster \"" ++ o.Name ++ "\" has multiple default backup policies") ∧
        o.Validate env retentionValid =
          .error ("cluster \"" ++ o.Name ++ "\" has multiple default backup policies")) ∧
    (∀ p, defaultPolicies env o.Name = [p] →
      o.getDefaultBackupPolicy env = .ok p.name ∧
        o.completeDefaultBackupPolicy env = .ok { o with BackupPolicyName := p.name }) := by
  have heq := getDefaultBackupPolicy_eq o env hcluster
  refine ⟨?_, ?_, ?_, ?_⟩
  · intro hm
    have hg : o.getDefaultBackupPolicy env =
        .error ("not found any backup policy for cluster \"" ++ o.Name ++ "\"") := by
      rw [heq, if_pos (by simp [hm])]
    exact ⟨hg, validate_propagates_defaultPolicy_err o env retentionValid _ hname hpol hg⟩
  · intro hm hd
    have hg : o.getDefaultBackupPolicy env =
        .error ("not found any default backup policy for cluster \"" ++ o.Name ++ "\"") := by
      rw [heq, if_neg (by simp [hm]), if_pos (by simp [hd])]
    exact ⟨hg, validate_propagates_defaultPolicy_err o env retentionValid _ hname hpol hg⟩
  · intro hlen
    have h0 : (defaultPolicies env o.Name).length ≠ 0 := by omega
    have hle : (defaultPolicies env o.Name).length ≤ (matchedPolicies env o.Name).length :=
      List.length_filter_le _ _
    have hm : (matchedPolicies env o.Name).length ≠ 0 := by omega
    have hg : o.getDefaultBackupPolicy env =
        .error ("cluster \"" ++ o.Name ++ "\" has multiple default backup policies") := by
      rw [heq, if_neg (by simp [hm]), if_neg (by simp [h0]), if_pos (by simp [hlen])]
    exact ⟨hg, validate_propagates_defaultPolicy_err o env retentionValid _ hname hpol hg⟩
  · intro p hp
    have hle : (defaultPolicies env o.Name).length ≤ (matchedPolicies env o.Name).length :=
      List.length_filter_le _ _
    have hdlen : (defaultPolicies env o.Name).length = 1 := by rw [hp]; rfl
    have hm : (matchedPolicies env o.Name).length ≠ 0 := by omega
    have hg : o.getDefaultBackupPolicy env = .ok p.name := by
      rw [heq, hp]
      simp [hm]
    refine ⟨hg, ?_⟩
    simp [CreateBackupOptions.completeDefaultBackupPolicy, hg]

/-- Witness for C8 at a concrete input: the unique default policy
`pol-default` is selected. -/
theorem CreateBackupOptions.getDefaultBackupPolicy_spec_witness :
    (matchedPolicies envC8 createOptsC8.Name = [] →
      createOptsC8.getDefaultBackupPolicy envC8 =
          .error ("not found any backup policy for cluster \"" ++ createOptsC8.Name ++ "\"") ∧
        createOptsC8.Validate envC8 (fun _ => true) =
          .error ("not found any backup policy for cluster \"" ++ createOptsC8.Name ++ "\"")) ∧
    (matchedPolicies envC8 createOptsC8.Name ≠ [] → defaultPolicies envC8 createOptsC8.Name = [] →
      createOptsC8.getDefaultBackupPolicy envC8 =
          .error ("not found any default backup policy for cluster \"" ++ createOptsC8.Name ++ "\"") ∧
        createOptsC8.Validate envC8 (fun _ => true) =
          .error ("not found any default backup policy for cluster \"" ++ createOptsC8.Name ++ "\"")) ∧
    (1 < (defaultPolicies envC8 createOptsC8.Name).length →
      createOptsC8.getDefaultBackupPolicy envC8 =
          .error ("cluster \"" ++ createOptsC8.Name ++ "\" has multiple default backup policies") ∧
        createOptsC8.Validate envC8 (fun _ => true) =
          .error ("cluster \"" ++ createOptsC8.Name ++ "\" has multiple default backup policies")) ∧
    (∀ p, defaultPolicies envC8 createOptsC8.Name = [p] →
      createOptsC8.getDefaultBackupPolicy envC8 = .ok p.name ∧
        createOptsC8.completeDefaultBackupPolicy envC8 =
          .ok { createOptsC8 with BackupPolicyName := p.name }) :=
  CreateBackupOptions.getDefaultBackupPolicy_spec createOptsC8 envC8 (fun _ => true)
    (by decide) rfl (by decide)

/-- C5: in tabular (non-JSON/YAML) mode with a non-empty remote list,
`PrintBackupList` prints rows ordered by creation timestamp ascending, and
when the explicit include-name set is non-empty every backup whose name is
not in that set is omitted. -/
theorem PrintBackupList_table_sorted (o : ListBackupOptions) (remote : List BackupItem)
    (hj : o.Format ≠ .json) (hy : o.Format ≠ .yaml) (hne : remote ≠ []) :
    ∃ rows, PrintBackupList o remote = .table rows ∧
      rows.Pairwise createdBefore ∧
      (o.Names ≠ [] → ∀ b ∈ rows, b.name ∈ o.Names) := by
  refine ⟨(sortBackupsByCreation remote).filter (keepBackupRow o.Names), ?_, ?_, ?_⟩
  · simp [PrintBackupList, hj, hy, List.length_eq_zero, hne]
  · have hsorted : (sortBackupsByCreation remote).Pairwise createdBefore :=
      List.sorted_insertionSort createdBefore remote
    exact hsorted.sublist (List.filter_sublist _)
  · intro hnn b hb
    rcases List.mem_filter.mp hb with ⟨_, hkeep⟩
    have hlen : o.Names.length ≠ 0 := by
      simpa [List.length_eq_zero] using hnn
    simp [keepBackupRow, hlen] at hkeep
    simpa using hkeep

/-- Witness for C5 at a concrete input. -/
theorem PrintBackupList_table_sorted_witness :
    ∃ rows, PrintBackupList listOptsC5 remoteC5 = .table rows ∧
      rows.Pairwise createdBefore ∧
      (listOptsC5.Names ≠ [] → ∀ b ∈ rows, b.name ∈ listOptsC5.Names) :=
  PrintBackupList_table_sorted listOptsC5 remoteC5 (by decide) (by decide) (by decide)

/-- C6: in JSON or YAML mode `PrintBackupList` delegates to the generic
`ListOptions.Run`, a structural passthrough of the remote list with no
column projection, restricted to the single `--name` when that flag is
set. -/
theorem PrintBackupList_passthrough (o : ListBackupOptions) (remote : List BackupItem)
    (h : o.Format = .json ∨ o.Format = .yaml) :
    (o.BackupName = "" → PrintBackupList o remote = .passthrough o.Names) ∧
    (o.BackupName ≠ "" → PrintBackupList o remote = .passthrough [o.BackupName]) := by
  rcases h with h | h <;>
    exact ⟨fun hb => by simp [PrintBackupList, h, hb],
      fun hb => by simp [PrintBackupList, h, hb]⟩

/-- Witness for C6 at a concrete input. -/
theorem PrintBackupList_passthrough_witness :
    (listOptsC6.BackupName = "" →
      PrintBackupList listOptsC6 remoteC5 = .passthrough listOptsC6.Names) ∧
    (listOptsC6.BackupName ≠ "" →
      PrintBackupList listOptsC6 remoteC5 = .passthrough [listOptsC6.BackupName]) :=
  PrintBackupList_passthrough listOptsC6 remoteC5 (Or.inl rfl)

/-- The loop ignores a skipped line. -/
theorem applyGo_cons_skip (keyMap : List (String × UpdateFieldFn)) (v : String)
    (rest : List String) (t : String) (c : List (String × String))
    (h : lineSkipped v = true) :
    applyGo keyMap (v :: rest) t c = applyGo keyMap rest t c := by
  simp only [lineSkipped] at h
  simp only [applyGo, h, if_true]

/-- The loop appends the row text and records the invocation for a passing
non-skipped line. -/
theorem applyGo_cons_ok (keyMap : List (String × UpdateFieldFn)) (v : String)
    (rest : List String) (t : String) (c : List (String × String))
    (h : lineOK keyMap v = true) (hns : lineSkipped v = false) :
    applyGo keyMap (v :: rest) t c =
      applyGo keyMap rest (t ++ goTrimSpace v)
        (c ++ [((goSplitEq (goTrimSpace v)).headD "",
          trimEditValue ((goSplitEq (goTrimSpace v)).getD 1 ""))]) := by
  simp only [lineOK, hns, Bool.false_or, Bool.and_eq_true, beq_iff_eq] at h
  obtain ⟨hlen, hfn⟩ := h
  have hcond : (goHasPrefixHash (goTrimSpace v) || goTrimSpace v == "") = false := by
    simpa [lineSkipped] using hns
  cases hlook : keyMap.lookup ((goSplitEq (goTrimSpace v)).headD "") with
  | none => rw [hlook] at hfn; simp at hfn
  | some updateFn =>
    rw [hlook] at hfn
    simp only [] at hfn
    cases hupd : updateFn (trimEditValue ((goSplitEq (goTrimSpace v)).getD 1 "")) with
    | error e =>
      rw [hupd] at hfn
      simp at hfn
    | ok u =>
      simp only [applyGo, hcond, Bool.false_eq_true, if_false, bne, hlen, beq_self_eq_true,
        Bool.not_true, hlook, hupd]

/-- The loop stops at a rejected line with its error message, leaving the
invocation trace unchanged. -/
theorem applyGo_cons_bad (keyMap : List (String × UpdateFieldFn)) (v : String)
    (rest : List String) (t : String) (c : List (String × String))
    (hbad : lineRejected keyMap v = true) :
    applyGo keyMap (v :: rest) t c = (some (lineErrMsg v), t ++ goTrimSpace v, c) := by
  simp only [lineRejected, Bool.and_eq_true] at hbad
  obtain ⟨hns, hcond⟩ := hbad
  have hns' : lineSkipped v = false := by simpa using hns
  have hc : (goHasPrefixHash (goTrimSpace v) || goTrimSpace v == "") = false := by
    simpa [lineSkipped] using hns'
  by_cases hlen : ((goSplitEq (goTrimSpace v)).length == 2) = true
  · have hnone : (keyMap.lookup ((goSplitEq (goTrimSpace v)).headD "")).isNone = true := by
      rcases Bool.or_eq_true _ _ ▸ hcond with hl | hl
      · exfalso
        revert hl
        simp [bne, hlen]
      · exact hl
    rw [Option.isNone_iff_eq_none] at hnone
    simp only [applyGo, hc, Bool.false_eq_true, if_false, bne, hlen, Bool.not_true, hnone,
      lineErrMsg, if_neg]
  · have hlen' : ((goSplitEq (goTrimSpace v)).length == 2) = false := by simpa using hlen
    simp only [applyGo, hc, Bool.false_eq_true, if_false, bne, hlen', Bool.not_false, if_true,
      lineErrMsg]

/-- Passing lines contribute their row text and invocations, and the loop
continues past them. -/
theorem applyGo_append_ok (keyMap : List (String × UpdateFieldFn)) (pre : List String)
    (rest : List String) (t : String) (c : List (String × String))
    (h : ∀ v ∈ pre, lineOK keyMap v = true) :
    applyGo keyMap (pre ++ rest) t c =
      applyGo keyMap rest (t ++ rowsTextOf pre) (c ++ callsOfLines pre) := by
  induction pre generalizing t c with
  | nil => simp [rowsTextOf, callsOfLines, String.append_empty]
  | cons v pre ih =>
    have hv : lineOK keyMap v = true := h v (List.mem_cons_self _ _)
    have hrest : ∀ u ∈ pre, lineOK keyMap u = true := fun u hu => h u (List.mem_cons_of_mem _ hu)
    by_cases hskip : lineSkipped v = true
    · rw [List.cons_append, applyGo_cons_skip keyMap v _ t c hskip, ih t c hrest]
      simp [rowsTextOf, callsOfLines, hskip]
    · have hskip' : lineSkipped v = false := by simpa using hskip
      rw [List.cons_append, applyGo_cons_ok keyMap v _ t c hv hskip', ih _ _ hrest]
      simp [rowsTextOf, callsOfLines, hskip', String.append_assoc]

/-- C3: when the line loop completes without error and the serialized
target text equals the original, `applyChanges` performs zero update
(write) calls against the API and reports "no change", returning
success. -/
theorem applyChanges_noChange (o : EditBackupPolicyOptions)
    (keyMap : List (String × UpdateFieldFn))
    (herr : (o.applyChanges keyMap).err = none)
    (htgt : (o.applyChanges keyMap).finalTarget = o.original) :
    (o.applyChanges keyMap).apiWrites = 0 ∧
      (o.applyChanges keyMap).printed = ["updated (no change)"] := by
  rcases hgo : applyGo keyMap o.values o.target [] with ⟨e, target, calls⟩
  cases e with
  | some e =>
    exfalso
    simp [EditBackupPolicyOptions.applyChanges, hgo] at herr
  | none =>
    by_cases hEq : (o.original == target) = true
    · simp [EditBackupPolicyOptions.applyChanges, hgo, hEq]
    · exfalso
      simp [EditBackupPolicyOptions.applyChanges, hgo, hEq] at htgt
      exact hEq (by rw [htgt]; exact beq_self_eq_true _)

/-- Witness for C3 at a concrete input. -/
theorem applyChanges_noChange_witness :
    (editOptsC3.applyChanges keyMapC3).apiWrites = 0 ∧
      (editOptsC3.applyChanges keyMapC3).printed = ["updated (no change)"] :=
  applyChanges_noChange editOptsC3 keyMapC3 (by decide) (by decide)

/-- C4: a line that is not `key=value` or whose key is outside the
editable-key table stops `applyChanges` with that line's error, after
invoking update functions exactly for the valid lines before it and none
after, and without any full-object update call. -/
theorem applyChanges_failFast (o : EditBackupPolicyOptions)
    (keyMap : List (String × UpdateFieldFn)) (pre post : List String) (v : String)
    (hvals : o.values = pre ++ v :: post)
    (hpre : ∀ u ∈ pre, lineOK keyMap u = true)
    (hbad : lineRejected keyMap v = true) :
    (o.applyChanges keyMap).err = some (lineErrMsg v) ∧
      (o.applyChanges keyMap).updateFnCalls = callsOfLines pre ∧
      (o.applyChanges keyMap).apiWrites = 0 := by
  have hgo : applyGo keyMap o.values o.target [] =
      (some (lineErrMsg v), (o.target ++ rowsTextOf pre) ++ goTrimSpace v, callsOfLines pre) := by
    rw [hvals, applyGo_append_ok keyMap pre (v :: post) o.target [] hpre,
      List.nil_append, applyGo_cons_bad keyMap v post _ _ hbad]
  simp [EditBackupPolicyOptions.applyChanges, hgo]

/-- Witness for C4 at a concrete input: the loop stops at `badkey=x`,
having invoked only the first line's update. -/
theorem applyChanges_failFast_witness :
    (editOptsC4.applyChanges keyMapC4).err = some (lineErrMsg "badkey=x") ∧
      (editOptsC4.applyChanges keyMapC4).updateFnCalls =
        callsOfLines ["backupRepoName=repo1"] ∧
      (editOptsC4.applyChanges keyMapC4).apiWrites = 0 :=
  applyChanges_failFast editOptsC4 keyMapC4 ["backupRepoName=repo1"]
    ["backupRepoName=repo2"] "badkey=x" rfl (by decide) (by decide)
